import Mathlib

/-!
# Zambia Mining Site Planner: verified core of the filter-and-select pipeline

A shallow embedding of the core logic of `src/app.py` (Streamlit dashboard):
data loading with coordinate coercion (`load_data`, lines 39-48), the sidebar
filter pipeline (lines 243-257), the dependent district option computation
(lines 190-193), the default distance threshold (lines 228-235), the summary
metrics (lines 264-292), the nearest/farthest/top-commodity quick stats
(lines 312-332), and the row-selection resolution (lines 441-443).

DataFrames are modelled as Lean lists of records, pandas boolean-mask
filtering as `List.filter`, floats as rationals, and `NaN`-producing numeric
coercion as `Option ℚ`.
-/

set_option autoImplicit false

namespace MiningPlanner

/-- A raw CSV cell of a coordinate column, as seen by
`pd.to_numeric(..., errors="coerce")`: either a value that parses as a
number, or a non-numeric / missing value (which coerces to `NaN`). -/
inductive Cell where
  | numeric (q : ℚ)
  | nonNumeric
deriving DecidableEq, Repr

/-- Models `pd.to_numeric(col, errors="coerce")` on one cell: a numeric cell
becomes its number, anything else becomes `NaN` (modelled as `none`). -/
def to_numeric : Cell → Option ℚ
  | .numeric q => some q
  | .nonNumeric => none

/-- One raw CSV row of `zambia_mining_app_data_final.csv`, restricted to the
columns the modelled pipeline reads.  Field names are the CSV column names
used by `src/app.py`.  The free-text columns (Reserves, Geology_Description,
District/Town, Commodity_2/3) are only echoed to the detail renderer and are
not consumed by any modelled operation, so they are omitted. -/
structure RawRecord where
  Property_Name : String
  Province : String
  Clean_District : String
  Primary_Commodity : String
  Status : String
  Distance_From_Chingola_km : ℚ
  Travel_Time_From_Chingola_Hours : ℚ
  Latitude : Cell
  Longitude : Cell
deriving DecidableEq, Repr

/-- A record after the coordinate-coercion step of `load_data`
(app.py lines 43-44): `Latitude`/`Longitude` are now numeric-or-`NaN`,
modelled as `Option ℚ` (`none` = `NaN`). -/
structure Record where
  Property_Name : String
  Province : String
  Clean_District : String
  Primary_Commodity : String
  Status : String
  Distance_From_Chingola_km : ℚ
  Travel_Time_From_Chingola_Hours : ℚ
  Latitude : Option ℚ
  Longitude : Option ℚ
deriving DecidableEq, Repr

/-- The per-row effect of app.py lines 43-44:
`df['Latitude'] = pd.to_numeric(df['Latitude'], errors='coerce')` and the
same for `Longitude`. -/
def coerceRecord (r : RawRecord) : Record :=
  { Property_Name := r.Property_Name
    Province := r.Province
    Clean_District := r.Clean_District
    Primary_Commodity := r.Primary_Commodity
    Status := r.Status
    Distance_From_Chingola_km := r.Distance_From_Chingola_km
    Travel_Time_From_Chingola_Hours := r.Travel_Time_From_Chingola_Hours
    Latitude := to_numeric r.Latitude
    Longitude := to_numeric r.Longitude }

/-- `load_data` (app.py lines 39-45), file-found case: coerce both coordinate
columns to numeric, then `df.dropna(subset=['Latitude', 'Longitude'])`, which
keeps exactly the rows whose two coerced coordinates are non-`NaN`. -/
def load_data (rows : List RawRecord) : List Record :=
  (rows.map coerceRecord).filter (fun r => r.Latitude.isSome && r.Longitude.isSome)

/-- The user's current filter choices, as read from the sidebar widgets
(app.py lines 182-235).  The four multiselects yield lists of strings (empty
list = nothing selected); the distance slider yields a Python `int`. -/
structure Criteria where
  selected_provinces : List String
  selected_districts : List String
  selected_commodities : List String
  selected_statuses : List String
  max_distance : ℤ
deriving DecidableEq, Repr

/-- The filter pipeline of app.py lines 243-257: starting from a copy of the
store, narrow by each multiselect only when its selection list is non-empty
(Python truthiness of `if selected_xxx:`), then unconditionally by
`Distance_From_Chingola_km <= max_distance`. -/
def applyFilters (df : List Record) (c : Criteria) : List Record :=
  let df_filtered := df
  let df_filtered :=
    if c.selected_provinces ≠ [] then
      df_filtered.filter (fun r => decide (r.Province ∈ c.selected_provinces))
    else df_filtered
  let df_filtered :=
    if c.selected_districts ≠ [] then
      df_filtered.filter (fun r => decide (r.Clean_District ∈ c.selected_districts))
    else df_filtered
  let df_filtered :=
    if c.selected_commodities ≠ [] then
      df_filtered.filter (fun r => decide (r.Primary_Commodity ∈ c.selected_commodities))
    else df_filtered
  let df_filtered :=
    if c.selected_statuses ≠ [] then
      df_filtered.filter (fun r => decide (r.Status ∈ c.selected_statuses))
    else df_filtered
  df_filtered.filter (fun r => decide (r.Distance_From_Chingola_km ≤ (c.max_distance : ℚ)))

/-- Models `pandas.Series.unique()`: the distinct values of a column in
first-occurrence order. -/
def uniqueFirst {α : Type} [DecidableEq α] (xs : List α) : List α :=
  xs.foldl (fun acc x => if x ∈ acc then acc else acc ++ [x]) []

/-- The dependent district options of app.py lines 190-193:
`df[df['Province'].isin(selected_provinces)]['Clean_District'].unique()` when
provinces are selected, else `df['Clean_District'].unique()`.  (The widget
then shows `sorted(available_districts)`, which has the same members.) -/
def available_districts (df : List Record) (selected_provinces : List String) : List String :=
  if selected_provinces ≠ [] then
    uniqueFirst ((df.filter (fun r => decide (r.Province ∈ selected_provinces))).map
      (·.Clean_District))
  else
    uniqueFirst (df.map (·.Clean_District))

/-- Python's `int(x)` on a float: truncation toward zero. -/
def pyInt (q : ℚ) : ℤ := if 0 ≤ q then q.floor else q.ceil

/-- `pandas.Series.max()` of a non-empty column (the app only reaches the
slider when the store is non-empty, app.py lines 158-159). -/
def seriesMax (xs : List ℚ) : ℚ :=
  match xs with
  | [] => 0
  | x :: rest => rest.foldl max x

/-- The slider's default (and maximum) value, app.py line 232:
`int(df['Distance_From_Chingola_km'].max())`. -/
def default_max_distance (df : List Record) : ℤ :=
  pyInt (seriesMax (df.map (·.Distance_From_Chingola_km)))

/-- The criteria in effect when no widget has been touched: all multiselects
default to `[]` (app.py `default=[]`) and the slider to
`default_max_distance`. -/
def default_criteria (df : List Record) : Criteria :=
  { selected_provinces := []
    selected_districts := []
    selected_commodities := []
    selected_statuses := []
    max_distance := default_max_distance df }

/-- `pandas.Series.mean()`: sum divided by length. -/
def seriesMean (xs : List ℚ) : ℚ := xs.sum / xs.length

/-- `pandas.Series.nunique()`: number of distinct values. -/
def seriesNunique {α : Type} [DecidableEq α] (xs : List α) : Nat := (uniqueFirst xs).length

/-- The five summary cards of app.py lines 264-292.  `none` models the
string sentinel `"N/A"` shown for the two means when the view is empty. -/
structure Metrics where
  filtered_count : Nat
  avg_distance : Option ℚ
  avg_travel_time : Option ℚ
  unique_commodities : Nat
  unique_provinces : Nat
deriving DecidableEq, Repr

/-- Summary-metrics computation (app.py lines 264-292): each mean is guarded
by `if not df_filtered.empty`, falling back to the `"N/A"` sentinel; the two
`nunique` counts are guarded the same way, falling back to `0`. -/
def summarize (df_filtered : List Record) : Metrics :=
  { filtered_count := df_filtered.length
    avg_distance :=
      if df_filtered ≠ [] then
        some (seriesMean (df_filtered.map (·.Distance_From_Chingola_km)))
      else none
    avg_travel_time :=
      if df_filtered ≠ [] then
        some (seriesMean (df_filtered.map (·.Travel_Time_From_Chingola_Hours)))
      else none
    unique_commodities :=
      if df_filtered ≠ [] then seriesNunique (df_filtered.map (·.Primary_Commodity)) else 0
    unique_provinces :=
      if df_filtered ≠ [] then seriesNunique (df_filtered.map (·.Province)) else 0 }

/-- `df_filtered.nsmallest(1, 'Distance_From_Chingola_km').iloc[0]`
(app.py line 316): the first record attaining the minimum distance
(`nsmallest` defaults to `keep='first'`, so exact ties keep the earlier
row).  `none` when the view is empty (the code only runs this branch on a
non-empty view). -/
def nearest_property : List Record → Option Record
  | [] => none
  | r :: rs =>
      some (rs.foldl
        (fun acc x =>
          if x.Distance_From_Chingola_km < acc.Distance_From_Chingola_km then x else acc) r)

/-- `df_filtered.nlargest(1, 'Distance_From_Chingola_km').iloc[0]`
(app.py line 322): the first record attaining the maximum distance
(`keep='first'` on exact ties). -/
def farthest_property : List Record → Option Record
  | [] => none
  | r :: rs =>
      some (rs.foldl
        (fun acc x =>
          if acc.Distance_From_Chingola_km < x.Distance_From_Chingola_km then x else acc) r)

/-- Stable descending insertion by count: the new pair goes in front of the
first already-placed pair whose count it reaches.  Earlier pairs with an
equal count stay behind the new pair only when they have a strictly larger
count, so first-occurrence order is preserved among equal counts. -/
def insertByCountDesc (p : String × Nat) : List (String × Nat) → List (String × Nat)
  | [] => [p]
  | q :: qs => if q.2 ≤ p.2 then p :: q :: qs else q :: insertByCountDesc p qs

/-- Stable sort of (value, count) pairs by descending count. -/
def sortByCountDesc : List (String × Nat) → List (String × Nat)
  | [] => []
  | p :: ps => insertByCountDesc p (sortByCountDesc ps)

/-- Models `pandas.Series.value_counts()`: the distinct values are collected
in first-occurrence order and then stably sorted by descending count, so
exact count ties stay in first-occurrence order. -/
def value_counts (xs : List String) : List (String × Nat) :=
  sortByCountDesc ((uniqueFirst xs).map (fun k => (k, xs.count k)))

/-- The "Top Commodity" quick stat of app.py lines 328-329: the first index
entry of `df_filtered['Primary_Commodity'].value_counts()` together with its
count (`.index[0]` and `.iloc[0]`). -/
def top_commodity (df_filtered : List Record) : Option (String × Nat) :=
  (value_counts (df_filtered.map (·.Primary_Commodity))).head?

/-- Outcome of the property-detail resolution: no detail panel, a resolved
record, or an uncaught pandas `IndexError`. -/
inductive SelectionResult where
  | noSelection
  | selectedProperty (r : Record)
  | indexError
deriving DecidableEq, Repr

/-- The selection resolution of app.py lines 441-443: when the session
state's selection row list is empty (or absent) the detail panel is skipped;
otherwise the code runs `df_filtered.iloc[selected_idx]` on the first listed
row position, which returns the record at that position when in bounds and
raises `IndexError` when out of bounds. -/
def resolve_selection (df_filtered : List Record) (selection_rows : List Nat) : SelectionResult :=
  match selection_rows with
  | [] => .noSelection
  | selected_idx :: _ =>
      match df_filtered.get? selected_idx with
      | some r => .selectedProperty r
      | none => .indexError

/-- The two dataframe variables live across app.py lines 243-257: the store
`df` and the view under construction `df_filtered`. -/
structure Env where
  df : List Record
  df_filtered : List Record
deriving DecidableEq, Repr

/-- The filter pipeline of app.py lines 243-257 with its variable
environment made explicit: every statement rebinds `df_filtered` (starting
from `df.copy()`) and none assigns to `df`. -/
def filter_pipeline (e : Env) (c : Criteria) : Env :=
  let e := { e with df_filtered := e.df }
  let e :=
    if c.selected_provinces ≠ [] then
      { e with df_filtered :=
          e.df_filtered.filter (fun r => decide (r.Province ∈ c.selected_provinces)) }
    else e
  let e :=
    if c.selected_districts ≠ [] then
      { e with df_filtered :=
          e.df_filtered.filter (fun r => decide (r.Clean_District ∈ c.selected_districts)) }
    else e
  let e :=
    if c.selected_commodities ≠ [] then
      { e with df_filtered :=
          e.df_filtered.filter (fun r => decide (r.Primary_Commodity ∈ c.selected_commodities)) }
    else e
  let e :=
    if c.selected_statuses ≠ [] then
      { e with df_filtered :=
          e.df_filtered.filter (fun r => decide (r.Status ∈ c.selected_statuses)) }
    else e
  { e with df_filtered :=
      e.df_filtered.filter (fun r => decide (r.Distance_From_Chingola_km ≤ (c.max_distance : ℚ))) }

/-- A sample record used by concrete witnesses. -/
def rA : Record :=
  { Property_Name := "Konkola"
    Province := "Copperbelt"
    Clean_District := "Chililabombwe"
    Primary_Commodity := "Copper"
    Status := "Active"
    Distance_From_Chingola_km := 26
    Travel_Time_From_Chingola_Hours := 1
    Latitude := some (-12)
    Longitude := some 27 }

/-- A second sample record used by concrete witnesses. -/
def rB : Record :=
  { Property_Name := "Kagem"
    Province := "Copperbelt"
    Clean_District := "Lufwanyama"
    Primary_Commodity := "Emerald"
    Status := "Active"
    Distance_From_Chingola_km := 120
    Travel_Time_From_Chingola_Hours := 3
    Latitude := some (-13)
    Longitude := some 28 }

/-- A record whose distance from base has a fractional part, used to probe
the integer-truncated default slider value. -/
def rHalf : Record :=
  { Property_Name := "Kansanshi"
    Province := "North-Western"
    Clean_District := "Solwezi"
    Primary_Commodity := "Copper"
    Status := "Active"
    Distance_From_Chingola_km := Rat.mk' 361 2 (by decide) (by norm_num)
    Travel_Time_From_Chingola_Hours := 4
    Latitude := some (-12)
    Longitude := some 26 }

/-- Concrete criteria used by witnesses: one province selected, everything
else unrestricted, a generous distance threshold. -/
def cP1 : Criteria :=
  { selected_provinces := ["Copperbelt"]
    selected_districts := []
    selected_commodities := []
    selected_statuses := []
    max_distance := 500 }

/-- A raw CSV row whose coordinates both parse. -/
def rawGood : RawRecord :=
  { Property_Name := "Konkola"
    Province := "Copperbelt"
    Clean_District := "Chililabombwe"
    Primary_Commodity := "Copper"
    Status := "Active"
    Distance_From_Chingola_km := 26
    Travel_Time_From_Chingola_Hours := 1
    Latitude := .numeric (-12)
    Longitude := .numeric 27 }

/-- A raw CSV row whose latitude fails numeric coercion. -/
def rawBadLat : RawRecord :=
  { Property_Name := "Mystery"
    Province := "Luapula"
    Clean_District := "Mansa"
    Primary_Commodity := "Mangawese"
    Status := "Dormant"
    Distance_From_Chingola_km := 300
    Travel_Time_From_Chingola_Hours := 6
    Latitude := .nonNumeric
    Longitude := .numeric 29 }

/-! ## Helper lemmas -/

theorem mem_foldl_uniqueFirst {α : Type} [DecidableEq α] (xs : List α) (acc : List α) (y : α) :
    y ∈ xs.foldl (fun acc x => if x ∈ acc then acc else acc ++ [x]) acc ↔ y ∈ acc ∨ y ∈ xs := by
  induction xs generalizing acc with
  | nil => simp
  | cons x xs ih =>
    rw [List.foldl_cons]
    by_cases hx : x ∈ acc
    · rw [if_pos hx, ih]
      simp only [List.mem_cons]
      constructor
      · rintro (h | h)
        · exact Or.inl h
        · exact Or.inr (Or.inr h)
      · rintro (h | rfl | h)
        · exact Or.inl h
        · exact Or.inl hx
        · exact Or.inr h
    · rw [if_neg hx, ih]
      simp only [List.mem_append, List.mem_singleton, List.mem_cons]
      tauto

theorem mem_uniqueFirst {α : Type} [DecidableEq α] {xs : List α} {y : α} :
    y ∈ uniqueFirst xs ↔ y ∈ xs := by
  rw [uniqueFirst, mem_foldl_uniqueFirst]
  simp

theorem ite_filter_sublist (P : Prop) [Decidable P] (p : Record → Bool) (l : List Record) :
    List.Sublist (if P then l.filter p else l) l := by
  split
  · exact List.filter_sublist l
  · exact List.Sublist.refl l

theorem mem_of_mem_ite_filter {P : Prop} [Decidable P] {p : Record → Bool} {l : List Record}
    {r : Record} (h : r ∈ (if P then l.filter p else l)) : r ∈ l ∧ (P → p r = true) := by
  by_cases hP : P
  · rw [if_pos hP] at h
    exact ⟨(List.mem_filter.mp h).1, fun _ => (List.mem_filter.mp h).2⟩
  · rw [if_neg hP] at h
    exact ⟨h, fun hp => absurd hp hP⟩

theorem filter_pipeline_eq (e : Env) (c : Criteria) :
    filter_pipeline e c = { df := e.df, df_filtered := applyFilters e.df c } := by
  simp only [filter_pipeline, applyFilters]
  split_ifs <;> rfl

/-! ## Claims -/

/-- C2: for every Record Store and Filter Criteria, the Filtered View is a
subsequence of the store (hence preserves original relative order), and every
record in it satisfies each active membership predicate (empty selection = no
restriction) as well as the inclusive distance bound. -/
theorem filtered_view_sound (df : List Record) (c : Criteria) :
    List.Sublist (applyFilters df c) df ∧
    ∀ r ∈ applyFilters df c,
      (c.selected_provinces ≠ [] → r.Province ∈ c.selected_provinces) ∧
      (c.selected_districts ≠ [] → r.Clean_District ∈ c.selected_districts) ∧
      (c.selected_commodities ≠ [] → r.Primary_Commodity ∈ c.selected_commodities) ∧
      (c.selected_statuses ≠ [] → r.Status ∈ c.selected_statuses) ∧
      r.Distance_From_Chingola_km ≤ (c.max_distance : ℚ) := by
  constructor
  · simp only [applyFilters]
    exact (List.filter_sublist _).trans ((ite_filter_sublist _ _ _).trans
      ((ite_filter_sublist _ _ _).trans ((ite_filter_sublist _ _ _).trans
        (ite_filter_sublist _ _ _))))
  · intro r hr
    simp only [applyFilters] at hr
    have h5 := List.mem_filter.mp hr
    have h4 := mem_of_mem_ite_filter h5.1
    have h3 := mem_of_mem_ite_filter h4.1
    have h2 := mem_of_mem_ite_filter h3.1
    have h1 := mem_of_mem_ite_filter h2.1
    refine ⟨?_, ?_, ?_, ?_, ?_⟩
    · exact fun hne => of_decide_eq_true (h1.2 hne)
    · exact fun hne => of_decide_eq_true (h2.2 hne)
    · exact fun hne => of_decide_eq_true (h3.2 hne)
    · exact fun hne => of_decide_eq_true (h4.2 hne)
    · exact of_decide_eq_true h5.2

/-- Witness for C2 at a concrete store and criteria: `rA` is in the filtered
view, and the theorem yields its predicate satisfaction there. -/
theorem filtered_view_sound_witness :
    rA ∈ applyFilters [rA, rB] cP1 ∧
      ((cP1.selected_provinces ≠ [] → rA.Province ∈ cP1.selected_provinces) ∧
       (cP1.selected_districts ≠ [] → rA.Clean_District ∈ cP1.selected_districts) ∧
       (cP1.selected_commodities ≠ [] → rA.Primary_Commodity ∈ cP1.selected_commodities) ∧
       (cP1.selected_statuses ≠ [] → rA.Status ∈ cP1.selected_statuses) ∧
       rA.Distance_From_Chingola_km ≤ (cP1.max_distance : ℚ)) :=
  ⟨by decide, (filtered_view_sound [rA, rB] cP1).2 rA (by decide)⟩

/-- C3 counterexample: the slider's default value is the integer-truncated
maximum distance (app.py line 232), so on a store whose maximum distance is
fractional (here 180.5 km), filtering with all-empty membership criteria and
the default threshold (180) drops the farthest record instead of returning
the full store. -/
theorem default_threshold_drops_record :
    applyFilters [rHalf] (default_criteria [rHalf]) = [] ∧
    applyFilters [rHalf] (default_criteria [rHalf]) ≠ [rHalf] := by decide

/-- C3 (amended): for every non-empty Record Store, filtering with all-empty
membership criteria and a distance threshold that is at least every record's
distance (which the code's integer-truncated default is exactly when no
distance has a fractional part above it) returns the full Record Store in
original order. -/
theorem filters_all_empty_full_store (df : List Record) (t : ℤ) (_hne : df ≠ [])
    (hdist : ∀ r ∈ df, r.Distance_From_Chingola_km ≤ (t : ℚ)) :
    applyFilters df
      { selected_provinces := [], selected_districts := [], selected_commodities := [],
        selected_statuses := [], max_distance := t } = df := by
  simp only [applyFilters, ne_eq, not_true_eq_false, if_false]
  exact List.filter_eq_self.mpr fun r hr => decide_eq_true (hdist r hr)

/-- Witness for C3 (amended) at a concrete two-record store. -/
theorem filters_all_empty_full_store_witness :
    ([rA, rB] : List Record) ≠ [] ∧
      (∀ r ∈ ([rA, rB] : List Record), r.Distance_From_Chingola_km ≤ ((500 : ℤ) : ℚ)) ∧
      applyFilters [rA, rB]
        { selected_provinces := [], selected_districts := [], selected_commodities := [],
          selected_statuses := [], max_distance := 500 } = [rA, rB] :=
  ⟨by decide, by decide, filters_all_empty_full_store [rA, rB] 500 (by decide) (by decide)⟩

/-- C4: the district options offered to the user are exactly the districts of
records whose province is among the selected ones when a province selection
is active, and the districts of all records otherwise. -/
theorem available_districts_correct (df : List Record) (P : List String) (d : String) :
    d ∈ available_districts df P ↔
      (if P = [] then ∃ r ∈ df, r.Clean_District = d
       else ∃ r ∈ df, r.Province ∈ P ∧ r.Clean_District = d) := by
  unfold available_districts
  by_cases hP : P = []
  · rw [if_pos hP, if_neg (by simp [hP])]
    simp [mem_uniqueFirst]
  · rw [if_neg hP, if_pos hP]
    simp only [mem_uniqueFirst, List.mem_map, List.mem_filter, decide_eq_true_eq]
    constructor
    · rintro ⟨r, ⟨hr, hp⟩, hd⟩
      exact ⟨r, hr, hp, hd⟩
    · rintro ⟨r, hr, hp, hd⟩
      exact ⟨r, ⟨hr, hp⟩, hd⟩

/-- C5: the summary-metrics computation is total and, on the empty Filtered
View, returns the "N/A" sentinel (modelled as `none`) for both means and 0
for both distinct counts. -/
theorem summarize_empty_total :
    summarize [] =
      { filtered_count := 0, avg_distance := none, avg_travel_time := none,
        unique_commodities := 0, unique_provinces := 0 } := by decide

/-- C6: on a single-record Filtered View, the nearest and farthest property
metrics are both that record. -/
theorem single_record_nearest_farthest (r : Record) :
    nearest_property [r] = some r ∧ farthest_property [r] = some r := ⟨rfl, rfl⟩

/-- C1 (code-bug evidence): the detail-panel code guards only against an
empty selection row list, not against a stale out-of-bounds index: on a
one-record view, a captured index 1 reaches `df_filtered.iloc[1]` and raises
`IndexError` instead of resolving to `NoSelection`; an in-bounds index
resolves to the record at that position. -/
theorem stale_selection_index_error :
    resolve_selection [rA] [1] = SelectionResult.indexError ∧
    resolve_selection [rA] [1] ≠ SelectionResult.noSelection ∧
    resolve_selection [rA] [0] = SelectionResult.selectedProperty rA ∧
    resolve_selection [rA] [] = SelectionResult.noSelection := by decide

/-- C9: loading keeps exactly the input rows whose two coordinates coerce to
numbers (in original order, with coordinates replaced by their coerced
values), and every record in the resulting store has valid coordinates. -/
theorem load_data_drops_exactly_bad_coords (rows : List RawRecord) :
    load_data rows =
      (rows.filter
        (fun r => (to_numeric r.Latitude).isSome && (to_numeric r.Longitude).isSome)).map
        coerceRecord ∧
    ∀ s ∈ load_data rows, s.Latitude.isSome = true ∧ s.Longitude.isSome = true := by
  constructor
  · unfold load_data
    rw [List.filter_map]
    rfl
  · intro s hs
    have hmem := (List.mem_filter.mp hs).2
    simpa using hmem

/-- Witness for C9 at a concrete pair of raw rows (one good, one with a
non-numeric latitude): the bad row is dropped, the good row's image is in
the store and has valid coordinates. -/
theorem load_data_drops_exactly_bad_coords_witness :
    load_data [rawGood, rawBadLat] = [coerceRecord rawGood] ∧
    coerceRecord rawGood ∈ load_data [rawGood, rawBadLat] ∧
    ((coerceRecord rawGood).Latitude.isSome = true ∧
      (coerceRecord rawGood).Longitude.isSome = true) :=
  ⟨by decide, by decide,
    (load_data_drops_exactly_bad_coords [rawGood, rawBadLat]).2 (coerceRecord rawGood)
      (by decide)⟩

/-- C10: the filter pipeline never assigns to the Record Store variable: it
narrows a copy, so after a render cycle the store equals its value at load
time, the produced view is a pure function of store and criteria, and
re-running the pipeline with the same criteria yields an identical view. -/
theorem filter_pipeline_frame (e : Env) (c : Criteria) :
    (filter_pipeline e c).df = e.df ∧
    (filter_pipeline e c).df_filtered = applyFilters e.df c ∧
    (filter_pipeline (filter_pipeline e c) c).df_filtered = (filter_pipeline e c).df_filtered := by
  simp [filter_pipeline_eq]

theorem foldl_min_first {α : Type} (f : α → ℚ) (rs : List α) (r : α) :
    ∃ l₁ l₂,
      r :: rs = l₁ ++ (rs.foldl (fun acc x => if f x < f acc then x else acc) r) :: l₂ ∧
      (∀ s ∈ r :: rs, f (rs.foldl (fun acc x => if f x < f acc then x else acc) r) ≤ f s) ∧
      (∀ s ∈ l₁, f (rs.foldl (fun acc x => if f x < f acc then x else acc) r) < f s) := by
  induction rs generalizing r with
  | nil =>
    exact ⟨[], [], rfl, by simp, by simp⟩
  | cons x xs ih =>
    rw [List.foldl_cons]
    by_cases h : f x < f r
    · rw [if_pos h]
      obtain ⟨l₁, l₂, heq, hmin, hfirst⟩ := ih x
      refine ⟨r :: l₁, l₂, ?_, ?_, ?_⟩
      · rw [List.cons_append, ← heq]
      · intro s hs
        rcases List.mem_cons.mp hs with rfl | hs
        · exact le_of_lt (lt_of_le_of_lt (hmin x (List.mem_cons_self x xs)) h)
        · exact hmin s hs
      · intro s hs
        rcases List.mem_cons.mp hs with rfl | hs
        · exact lt_of_le_of_lt (hmin x (List.mem_cons_self x xs)) h
        · exact hfirst s hs
    · rw [if_neg h]
      obtain ⟨l₁, l₂, heq, hmin, hfirst⟩ := ih r
      have hrx : f r ≤ f x := le_of_not_lt h
      cases l₁ with
      | nil =>
        rw [List.nil_append] at heq
        injection heq with h1 h2
        refine ⟨[], x :: xs, ?_, ?_, by simp⟩
        · rw [List.nil_append, ← h1]
        · intro s hs
          rcases List.mem_cons.mp hs with rfl | hs
          · exact hmin s (List.mem_cons_self s xs)
          · rcases List.mem_cons.mp hs with rfl | hs
            · exact le_trans (hmin r (List.mem_cons_self r xs)) hrx
            · exact hmin s (List.mem_cons_of_mem r hs)
      | cons a t =>
        rw [List.cons_append] at heq
        injection heq with h1 h2
        subst h1
        have hmr : f (xs.foldl (fun acc x => if f x < f acc then x else acc) r) < f r :=
          hfirst r (List.mem_cons_self r t)
        refine ⟨r :: x :: t, l₂, ?_, ?_, ?_⟩
        · rw [List.cons_append, List.cons_append, ← h2]
        · intro s hs
          rcases List.mem_cons.mp hs with rfl | hs
          · exact hmin s (List.mem_cons_self s xs)
          · rcases List.mem_cons.mp hs with rfl | hs
            · exact le_trans (le_of_lt hmr) hrx
            · exact hmin s (List.mem_cons_of_mem r hs)
        · intro s hs
          rcases List.mem_cons.mp hs with rfl | hs
          · exact hmr
          · rcases List.mem_cons.mp hs with rfl | hs
            · exact lt_of_lt_of_le hmr hrx
            · exact hfirst s (List.mem_cons_of_mem r hs)

theorem foldl_max_first {α : Type} (f : α → ℚ) (rs : List α) (r : α) :
    ∃ l₁ l₂,
      r :: rs = l₁ ++ (rs.foldl (fun acc x => if f acc < f x then x else acc) r) :: l₂ ∧
      (∀ s ∈ r :: rs, f s ≤ f (rs.foldl (fun acc x => if f acc < f x then x else acc) r)) ∧
      (∀ s ∈ l₁, f s < f (rs.foldl (fun acc x => if f acc < f x then x else acc) r)) := by
  induction rs generalizing r with
  | nil =>
    exact ⟨[], [], rfl, by simp, by simp⟩
  | cons x xs ih =>
    rw [List.foldl_cons]
    by_cases h : f r < f x
    · rw [if_pos h]
      obtain ⟨l₁, l₂, heq, hmax, hfirst⟩ := ih x
      refine ⟨r :: l₁, l₂, ?_, ?_, ?_⟩
      · rw [List.cons_append, ← heq]
      · intro s hs
        rcases List.mem_cons.mp hs with rfl | hs
        · exact le_of_lt (lt_of_lt_of_le h (hmax x (List.mem_cons_self x xs)))
        · exact hmax s hs
      · intro s hs
        rcases List.mem_cons.mp hs with rfl | hs
        · exact lt_of_lt_of_le h (hmax x (List.mem_cons_self x xs))
        · exact hfirst s hs
    · rw [if_neg h]
      obtain ⟨l₁, l₂, heq, hmax, hfirst⟩ := ih r
      have hxr : f x ≤ f r := le_of_not_lt h
      cases l₁ with
      | nil =>
        rw [List.nil_append] at heq
        injection heq with h1 h2
        refine ⟨[], x :: xs, ?_, ?_, by simp⟩
        · rw [List.nil_append, ← h1]
        · intro s hs
          rcases List.mem_cons.mp hs with rfl | hs
          · exact hmax s (List.mem_cons_self s xs)
          · rcases List.mem_cons.mp hs with rfl | hs
            · exact le_trans hxr (hmax r (List.mem_cons_self r xs))
            · exact hmax s (List.mem_cons_of_mem r hs)
      | cons a t =>
        rw [List.cons_append] at heq
        injection heq with h1 h2
        subst h1
        have hmr : f r < f (xs.foldl (fun acc x => if f acc < f x then x else acc) r) :=
          hfirst r (List.mem_cons_self r t)
        refine ⟨r :: x :: t, l₂, ?_, ?_, ?_⟩
        · rw [List.cons_append, List.cons_append, ← h2]
        · intro s hs
          rcases List.mem_cons.mp hs with rfl | hs
          · exact hmax s (List.mem_cons_self s xs)
          · rcases List.mem_cons.mp hs with rfl | hs
            · exact le_trans hxr (le_of_lt hmr)
            · exact hmax s (List.mem_cons_of_mem r hs)
        · intro s hs
          rcases List.mem_cons.mp hs with rfl | hs
          · exact hmr
          · rcases List.mem_cons.mp hs with rfl | hs
            · exact lt_of_le_of_lt hxr hmr
            · exact hfirst s (List.mem_cons_of_mem r hs)

/-- C7: on every non-empty Filtered View, the nearest-property metric is a
record of minimum distance and the farthest-property metric a record of
maximum distance, and on exact distance ties each is the first occurrence in
view order (every record strictly before it in the view has strictly
smaller/greater distance respectively). -/
theorem nearest_farthest_first_extremes (df : List Record) (h : df ≠ []) :
    (∃ m l₁ l₂, nearest_property df = some m ∧ df = l₁ ++ m :: l₂ ∧
      (∀ s ∈ df, m.Distance_From_Chingola_km ≤ s.Distance_From_Chingola_km) ∧
      (∀ s ∈ l₁, m.Distance_From_Chingola_km < s.Distance_From_Chingola_km)) ∧
    (∃ m l₁ l₂, farthest_property df = some m ∧ df = l₁ ++ m :: l₂ ∧
      (∀ s ∈ df, s.Distance_From_Chingola_km ≤ m.Distance_From_Chingola_km) ∧
      (∀ s ∈ l₁, s.Distance_From_Chingola_km < m.Distance_From_Chingola_km)) := by
  obtain ⟨r, rs, rfl⟩ := List.exists_cons_of_ne_nil h
  constructor
  · obtain ⟨l₁, l₂, heq, hmin, hfirst⟩ :=
      foldl_min_first (fun s : Record => s.Distance_From_Chingola_km) rs r
    exact ⟨_, l₁, l₂, rfl, heq, hmin, hfirst⟩
  · obtain ⟨l₁, l₂, heq, hmax, hfirst⟩ :=
      foldl_max_first (fun s : Record => s.Distance_From_Chingola_km) rs r
    exact ⟨_, l₁, l₂, rfl, heq, hmax, hfirst⟩

/-- Witness for C7 at the concrete view `[rB, rA]` (120 km then 26 km). -/
theorem nearest_farthest_first_extremes_witness :
    ([rB, rA] : List Record) ≠ [] ∧
    ((∃ m l₁ l₂, nearest_property [rB, rA] = some m ∧
        ([rB, rA] : List Record) = l₁ ++ m :: l₂ ∧
        (∀ s ∈ ([rB, rA] : List Record),
          m.Distance_From_Chingola_km ≤ s.Distance_From_Chingola_km) ∧
        (∀ s ∈ l₁, m.Distance_From_Chingola_km < s.Distance_From_Chingola_km)) ∧
      (∃ m l₁ l₂, farthest_property [rB, rA] = some m ∧
        ([rB, rA] : List Record) = l₁ ++ m :: l₂ ∧
        (∀ s ∈ ([rB, rA] : List Record),
          s.Distance_From_Chingola_km ≤ m.Distance_From_Chingola_km) ∧
        (∀ s ∈ l₁, s.Distance_From_Chingola_km < m.Distance_From_Chingola_km))) :=
  ⟨by decide, nearest_farthest_first_extremes [rB, rA] (by decide)⟩

theorem sortByCountDesc_head (ps : List (String × Nat)) (h : ps ≠ []) :
    ∃ p l₁ l₂, (sortByCountDesc ps).head? = some p ∧ ps = l₁ ++ p :: l₂ ∧
      (∀ q ∈ ps, q.2 ≤ p.2) ∧ (∀ q ∈ l₁, q.2 < p.2) := by
  induction ps with
  | nil => exact absurd rfl h
  | cons p ps ih =>
    cases ps with
    | nil =>
      refine ⟨p, [], [], rfl, rfl, ?_, by simp⟩
      intro q hq
      rw [List.mem_singleton.mp hq]
    | cons p2 ps2 =>
      obtain ⟨m, l₁, l₂, hhead, heq, hmax, hfirst⟩ := ih (by simp)
      obtain ⟨rest, hrest⟩ : ∃ rest, sortByCountDesc (p2 :: ps2) = m :: rest := by
        cases hs : sortByCountDesc (p2 :: ps2) with
        | nil => rw [hs] at hhead; simp at hhead
        | cons a as =>
          rw [hs] at hhead
          simp only [List.head?_cons, Option.some.injEq] at hhead
          exact ⟨as, by rw [hhead]⟩
      by_cases hc : m.2 ≤ p.2
      · refine ⟨p, [], p2 :: ps2, ?_, rfl, ?_, by simp⟩
        · show (insertByCountDesc p (sortByCountDesc (p2 :: ps2))).head? = some p
          rw [hrest]
          simp only [insertByCountDesc, if_pos hc, List.head?_cons]
        · intro q hq
          rcases List.mem_cons.mp hq with rfl | hq
          · exact le_refl _
          · exact le_trans (hmax q hq) hc
      · have hc' : p.2 < m.2 := Nat.lt_of_not_le hc
        refine ⟨m, p :: l₁, l₂, ?_, ?_, ?_, ?_⟩
        · show (insertByCountDesc p (sortByCountDesc (p2 :: ps2))).head? = some m
          rw [hrest]
          simp only [insertByCountDesc, if_neg hc, List.head?_cons]
        · rw [List.cons_append, ← heq]
        · intro q hq
          rcases List.mem_cons.mp hq with rfl | hq
          · exact le_of_lt hc'
          · exact hmax q hq
        · intro q hq
          rcases List.mem_cons.mp hq with rfl | hq
          · exact hc'
          · exact hfirst q hq

/-- C8: on every non-empty Filtered View, the top-commodity metric is the
mode of the primary-commodity column together with its count, and on
frequency ties the returned value is the one appearing first in
first-occurrence order among the distinct commodities (stable count-based
ranking). -/
theorem top_commodity_mode (df : List Record) (h : df ≠ []) :
    ∃ c n, top_commodity df = some (c, n) ∧
      n = (df.map (·.Primary_Commodity)).count c ∧
      (∀ d ∈ df.map (·.Primary_Commodity), (df.map (·.Primary_Commodity)).count d ≤ n) ∧
      ∃ ks₁ ks₂, uniqueFirst (df.map (·.Primary_Commodity)) = ks₁ ++ c :: ks₂ ∧
        ∀ d ∈ ks₁, (df.map (·.Primary_Commodity)).count d < n := by
  have hcs_ne : df.map (·.Primary_Commodity) ≠ [] := by
    cases df with
    | nil => exact absurd rfl h
    | cons r rs => simp
  have hkeys_ne : uniqueFirst (df.map (·.Primary_Commodity)) ≠ [] := by
    obtain ⟨a, as, hcs⟩ := List.exists_cons_of_ne_nil hcs_ne
    intro hnil
    have ha : a ∈ uniqueFirst (df.map (·.Primary_Commodity)) := by
      rw [mem_uniqueFirst, hcs]
      exact List.mem_cons_self a as
    rw [hnil] at ha
    exact List.not_mem_nil a ha
  have hpairs_ne :
      (uniqueFirst (df.map (·.Primary_Commodity))).map
        (fun k => (k, (df.map (·.Primary_Commodity)).count k)) ≠ [] := by
    intro hnil
    rw [List.map_eq_nil_iff] at hnil
    exact hkeys_ne hnil
  obtain ⟨p, l₁, l₂, hhead, heq, hmax, hfirst⟩ := sortByCountDesc_head _ hpairs_ne
  have hp_mem : p ∈ (uniqueFirst (df.map (·.Primary_Commodity))).map
      (fun k => (k, (df.map (·.Primary_Commodity)).count k)) := by
    rw [heq]
    exact List.mem_append_right _ (List.mem_cons_self _ _)
  obtain ⟨k, hk_mem, hk_eq⟩ := List.mem_map.mp hp_mem
  refine ⟨p.1, p.2, hhead, ?_, ?_, ?_⟩
  · rw [← hk_eq]
  · intro d hd
    have hd_pair : (d, (df.map (·.Primary_Commodity)).count d) ∈
        (uniqueFirst (df.map (·.Primary_Commodity))).map
          (fun k => (k, (df.map (·.Primary_Commodity)).count k)) :=
      List.mem_map.mpr ⟨d, mem_uniqueFirst.mpr hd, rfl⟩
    exact hmax _ hd_pair
  · refine ⟨l₁.map Prod.fst, l₂.map Prod.fst, ?_, ?_⟩
    · have hfst := congrArg (List.map Prod.fst) heq
      rw [List.map_map] at hfst
      simp only [List.map_append, List.map_cons] at hfst
      have hid :
          (Prod.fst ∘ fun k => (k, (df.map (·.Primary_Commodity)).count k)) = id := rfl
      rw [hid, List.map_id] at hfst
      exact hfst
    · intro d hd
      obtain ⟨q, hq_mem, hq_eq⟩ := List.mem_map.mp hd
      have hq_pairs : q ∈ (uniqueFirst (df.map (·.Primary_Commodity))).map
          (fun k => (k, (df.map (·.Primary_Commodity)).count k)) := by
        rw [heq]
        exact List.mem_append_left _ hq_mem
      obtain ⟨k2, hk2_mem, hk2_eq⟩ := List.mem_map.mp hq_pairs
      have hqd : (df.map (·.Primary_Commodity)).count d = q.2 := by
        rw [← hq_eq, ← hk2_eq]
      rw [hqd]
      exact hfirst q hq_mem

/-- Witness for C8 at the concrete view `[rB, rA, rB]` (commodities
Emerald, Copper, Emerald: the mode is Emerald with count 2). -/
theorem top_commodity_mode_witness :
    ([rB, rA, rB] : List Record) ≠ [] ∧
    (∃ c n, top_commodity [rB, rA, rB] = some (c, n) ∧
      n = (([rB, rA, rB] : List Record).map (·.Primary_Commodity)).count c ∧
      (∀ d ∈ ([rB, rA, rB] : List Record).map (·.Primary_Commodity),
        (([rB, rA, rB] : List Record).map (·.Primary_Commodity)).count d ≤ n) ∧
      ∃ ks₁ ks₂,
        uniqueFirst (([rB, rA, rB] : List Record).map (·.Primary_Commodity)) =
          ks₁ ++ c :: ks₂ ∧
        ∀ d ∈ ks₁, (([rB, rA, rB] : List Record).map (·.Primary_Commodity)).count d < n) :=
  ⟨by decide, top_commodity_mode [rB, rA, rB] (by decide)⟩

end MiningPlanner
